import Mathlib

/-!
Shallow embedding of the Jobly data-access layer:
`helpers/sql.js` (`sqlForPartialUpdate`), `models/company.js` and
`models/job.js` (`Company.findAll`, `Company.get`, `Company.update`,
`Job.findAll`, `Job.update`), together with the semantics of the SQL
statements they issue against the `companies` and `jobs` tables.

JavaScript objects are embedded as insertion-ordered association lists.
JS / SQL values are embedded as the inductive `Value` (SQL NULL, integers,
numerics, strings).  Thrown `BadRequestError` / `NotFoundError` become
`Except.error` with the error payload, keeping the error message the code
builds.
-/

/-- JS / SQL values crossing the repository boundary.  `vnull` stands both
for JS `undefined`/`null` and SQL `NULL`; `vrat` stands for SQL `numeric`
(the `equity` column). -/
inductive Value where
  | vnull : Value
  | vint : Int → Value
  | vrat : Rat → Value
  | vstr : String → Value
deriving DecidableEq, Repr

/-- The error classes of `expressError.js` that the embedded code throws,
with the message the code supplies.  `sqlError` stands for an error raised
by the database itself (e.g. an UPDATE that targets a column that does not
exist in the table). -/
inductive Err where
  | badRequest : String → Err
  | notFound : String → Err
  | sqlError : String → Err
deriving DecidableEq, Repr

/-- `e.isOkB` is `true` exactly when `e` carries a success value. -/
def isOkB {α : Type} : Except Err α → Bool
  | .ok _ => true
  | .error _ => false

/-- JS property access `obj[key]` on an object embedded as an association
list: the value at the first occurrence of the key, `none` for `undefined`. -/
def lookupStr {α : Type} : List (String × α) → String → Option α
  | [], _ => none
  | (k, v) :: rest, key => if k = key then some v else lookupStr rest key

/-- `jsToSql[colName] || colName` from `helpers/sql.js`: the override value
when present and truthy; the field name itself when the key is absent or its
value is falsy (for a string-valued table the only falsy value is `""`). -/
def resolveColumn (jsToSql : List (String × String)) (colName : String) : String :=
  match lookupStr jsToSql colName with
  | some c => if c = "" then colName else c
  | none => colName

/-- One element of the `cols` array of `sqlForPartialUpdate`:
`` `"${jsToSql[colName] || colName}"=$${idx + 1}` `` at 0-based index `idx`. -/
def quoteAssign (jsToSql : List (String × String)) (colName : String) (idx : Nat) : String :=
  "\"" ++ resolveColumn jsToSql colName ++ "\"=$" ++ toString (idx + 1)

/-- The `keys.map((colName, idx) => ...)` loop of `sqlForPartialUpdate`,
written as a recursion carrying the running index. -/
def buildCols (jsToSql : List (String × String)) : List String → Nat → List String
  | [], _ => []
  | k :: ks, idx => quoteAssign jsToSql k idx :: buildCols jsToSql ks (idx + 1)

/-- The `cols` array `sqlForPartialUpdate` builds for a given update object:
one assignment string per key of `dataToUpdate`, indices starting at 0. -/
def assignmentList (dataToUpdate : List (String × Value))
    (jsToSql : List (String × String)) : List String :=
  buildCols jsToSql (dataToUpdate.map Prod.fst) 0

/-- The `{ setCols, values }` object returned by `sqlForPartialUpdate`. -/
structure PartialUpdateResult where
  setCols : String
  values : List Value
deriving DecidableEq, Repr

/-- `sqlForPartialUpdate(dataToUpdate, jsToSql)` from `helpers/sql.js`:
throws `BadRequestError("No data")` on an empty update object, otherwise
returns the comma-joined assignment strings and `Object.values(dataToUpdate)`. -/
def sqlForPartialUpdate (dataToUpdate : List (String × Value))
    (jsToSql : List (String × String)) : Except Err PartialUpdateResult :=
  let keys := dataToUpdate.map Prod.fst
  if keys.length = 0 then
    .error (Err.badRequest "No data")
  else
    .ok { setCols := String.intercalate ", " (buildCols jsToSql keys 0),
          values := dataToUpdate.map Prod.snd }

example : sqlForPartialUpdate
    [("firstName", Value.vstr "Vera"), ("lastName", Value.vstr "Nouaime"),
     ("email", Value.vstr "test@gmail.com")]
    [("firstName", "first_name"), ("lastName", "last_name"), ("isAdmin", "is_admin")]
    = .ok { setCols := "\"first_name\"=$1, \"last_name\"=$2, \"email\"=$3",
            values := [Value.vstr "Vera", Value.vstr "Nouaime", Value.vstr "test@gmail.com"] } := by
  rfl

/-! ## The database, as the two tables the models query -/

/-- A row of the `companies` table, fields named after its columns. -/
structure CompanyRow where
  handle : Value
  name : Value
  description : Value
  num_employees : Value
  logo_url : Value
deriving DecidableEq, Repr

/-- A row of the `jobs` table, fields named after its columns. -/
structure JobRow where
  id : Value
  title : Value
  salary : Value
  equity : Value
  company_handle : Value
deriving DecidableEq, Repr

/-- The state of the store both models query through the shared `db` handle. -/
structure DbState where
  companies : List CompanyRow
  jobs : List JobRow
deriving DecidableEq, Repr

/-! ## SQL operator semantics used by the queries the models build -/

/-- SQL `x >= $n` on the embedded values: comparisons involving `NULL` (or
incomparable types) are not true, so the row is filtered out. -/
def sqlGe (x bound : Value) : Bool :=
  match x, bound with
  | .vint a, .vint b => a ≥ b
  | .vrat a, .vrat b => a ≥ b
  | .vrat a, .vint b => a ≥ (b : Rat)
  | .vint a, .vrat b => (a : Rat) ≥ b
  | _, _ => false

/-- SQL `x <= $n`, same conventions as `sqlGe`. -/
def sqlLe (x bound : Value) : Bool :=
  match x, bound with
  | .vint a, .vint b => a ≤ b
  | .vrat a, .vrat b => a ≤ b
  | .vrat a, .vint b => a ≤ (b : Rat)
  | .vint a, .vrat b => (a : Rat) ≤ b
  | _, _ => false

/-- SQL `equity > 0`: strictly positive numeric; `NULL` (absent equity) is
not greater than zero, so such rows are filtered out. -/
def sqlGtZero (x : Value) : Bool :=
  match x with
  | .vint a => a > 0
  | .vrat a => a > 0
  | _ => false

/-- Whether `p` occurs as a contiguous run inside `l`. -/
def isInfixOfB (p : List Char) : List Char → Bool
  | [] => p.isEmpty
  | c :: t => p.isPrefixOf (c :: t) || isInfixOfB p t

/-- SQL `col ILIKE $n` with the parameter `'%' + pat + '%'` as the models
build it: case-insensitive substring match; a `NULL` column never matches. -/
def sqlILikeContains (col pat : Value) : Bool :=
  match col, pat with
  | .vstr s, .vstr p => isInfixOfB p.toLower.toList s.toLower.toList
  | _, _ => false

/-- The JS comparison `minEmployees > maxEmployees` as the company model uses
it: integer comparison when both filter values are present integers;
comparisons against `undefined` are false. -/
def jsGt (a b : Option Value) : Bool :=
  match a, b with
  | some (.vint x), some (.vint y) => x > y
  | _, _ => false

/-! ## ORDER BY: an insertion sort over a boolean "less or equal" test -/

/-- Constructor rank, used to compare values of different SQL types. -/
def Value.rank : Value → Nat
  | .vnull => 0
  | .vint _ => 1
  | .vrat _ => 2
  | .vstr _ => 3

/-- A total boolean "less or equal" on embedded values, matching SQL ordering
on same-typed columns (the only case the models' ORDER BY exercises). -/
def valueLe (a b : Value) : Bool :=
  match a, b with
  | .vint x, .vint y => x ≤ y
  | .vrat x, .vrat y => x ≤ y
  | .vstr x, .vstr y => x ≤ y
  | _, _ => a.rank ≤ b.rank

/-- Insert into a sorted list, keeping earlier elements first on ties. -/
def insertLe {α : Type} (le : α → α → Bool) (a : α) : List α → List α
  | [] => [a]
  | b :: bs => if le a b then a :: b :: bs else b :: insertLe le a bs

/-- Insertion sort implementing the queries' `ORDER BY` clause. -/
def sortByLe {α : Type} (le : α → α → Bool) : List α → List α
  | [] => []
  | a :: as => insertLe le a (sortByLe le as)

/-! ## Filter validation shared by both `findAll` implementations -/

/-- `Object.keys(searchFilters).filter(key => !allowedFilters.includes(key))`. -/
def invalidFiltersOf (allowedFilters : List String)
    (searchFilters : List (String × Value)) : List String :=
  (searchFilters.map Prod.fst).filter (fun key => !allowedFilters.contains key)

namespace Company

/-- The `allowedFilters` list of `Company.findAll`. -/
def allowedFilters : List String := ["name", "minEmployees", "maxEmployees"]

/-- `Company.findAll(searchFilters)` from `models/company.js`: rejects filter
keys outside the allow-list (message joins the offenders), rejects
`minEmployees > maxEmployees`, then runs the assembled SELECT — each present
filter contributes one ANDed condition — ordered by `name`. -/
def findAll (st : DbState) (searchFilters : List (String × Value)) :
    Except Err (List CompanyRow) :=
  let invalidFilters := invalidFiltersOf allowedFilters searchFilters
  if invalidFilters.length > 0 then
    .error (Err.badRequest ("Invalid filter(s): " ++ String.intercalate ", " invalidFilters))
  else
    let name := lookupStr searchFilters "name"
    let minEmployees := lookupStr searchFilters "minEmployees"
    let maxEmployees := lookupStr searchFilters "maxEmployees"
    if jsGt minEmployees maxEmployees then
      .error (Err.badRequest "minEmployees cannot be greater than maxEmployees")
    else
      let conds : List (CompanyRow → Bool) :=
        (match name with
         | some n => [fun r => sqlILikeContains r.name n]
         | none => []) ++
        (match minEmployees with
         | some m => [fun r => sqlGe r.num_employees m]
         | none => []) ++
        (match maxEmployees with
         | some m => [fun r => sqlLe r.num_employees m]
         | none => [])
      let rows := st.companies.filter (fun r => conds.all (fun c => c r))
      .ok (sortByLe (fun a b => valueLe a.name b.name) rows)

/-- One row of the LEFT JOIN `Company.get` selects: the company columns
(aliased `numEmployees`, `logoUrl`) next to the joined job's columns. -/
structure GetRow where
  handle : Value
  name : Value
  description : Value
  numEmployees : Value
  logoUrl : Value
  id : Value
  title : Value
  salary : Value
  equity : Value
deriving DecidableEq, Repr

/-- The join row built from a company row and one matching job row. -/
def joinRow (c : CompanyRow) (j : JobRow) : GetRow :=
  { handle := c.handle, name := c.name, description := c.description,
    numEmployees := c.num_employees, logoUrl := c.logo_url,
    id := j.id, title := j.title, salary := j.salary, equity := j.equity }

/-- The join row a LEFT JOIN emits for a company with no matching job:
the job columns are `NULL`. -/
def joinRowNull (c : CompanyRow) : GetRow :=
  { handle := c.handle, name := c.name, description := c.description,
    numEmployees := c.num_employees, logoUrl := c.logo_url,
    id := .vnull, title := .vnull, salary := .vnull, equity := .vnull }

/-- `Company.get(handle)` from `models/company.js`: runs the LEFT JOIN of
`companies` with `jobs` on the handle, throws `NotFoundError` when no row
comes back, and otherwise returns `companyRes.rows` — the whole array of
join rows, one per associated job. -/
def get (st : DbState) (handle : String) : Except Err (List GetRow) :=
  let rows := (st.companies.filter (fun c => decide (c.handle = Value.vstr handle))).flatMap
    (fun c =>
      let js := st.jobs.filter (fun j => decide (j.company_handle = c.handle))
      if js.isEmpty then [joinRowNull c] else js.map (joinRow c))
  match rows with
  | [] => .error (Err.notFound ("No company: " ++ handle))
  | r :: rest => .ok (r :: rest)

end Company


/-! ## UPDATE statement semantics -/

namespace Company

/-- The columns of the `companies` table. -/
def tableCols : List String := ["handle", "name", "description", "num_employees", "logo_url"]

/-- The `jsToSql` override mapping `Company.update` passes to
`sqlForPartialUpdate`. -/
def jsToSql : List (String × String) :=
  [("numEmployees", "num_employees"), ("logoUrl", "logo_url")]

end Company

/-- SQL `SET "<col>"=<v>` applied to a company row; a name that is not a
column of the table leaves the row unchanged (the statement is rejected
before execution instead, see `Company.update`). -/
def CompanyRow.setCol (r : CompanyRow) (col : String) (v : Value) : CompanyRow :=
  if col = "handle" then { r with handle := v }
  else if col = "name" then { r with name := v }
  else if col = "description" then { r with description := v }
  else if col = "num_employees" then { r with num_employees := v }
  else if col = "logo_url" then { r with logo_url := v }
  else r

/-- Read a company row's column by name (`NULL` for an unknown name). -/
def CompanyRow.getCol (r : CompanyRow) (col : String) : Value :=
  if col = "handle" then r.handle
  else if col = "name" then r.name
  else if col = "description" then r.description
  else if col = "num_employees" then r.num_employees
  else if col = "logo_url" then r.logo_url
  else Value.vnull

/-- Apply a SET list (resolved column name, bound value) left to right. -/
def applyAssignsC (r : CompanyRow) (assigns : List (String × Value)) : CompanyRow :=
  assigns.foldl (fun acc a => acc.setCol a.1 a.2) r

namespace Company

/-- The SET targets `Company.update`'s statement names, in order: each data
key resolved through the override mapping, paired with its bound value. -/
def resolvedAssigns (data : List (String × Value)) : List (String × Value) :=
  data.map (fun kv => (resolveColumn jsToSql kv.1, kv.2))

/-- `Company.update(handle, data)` from `models/company.js`: builds the SET
clause with `sqlForPartialUpdate` (which throws on empty data), then runs
``UPDATE companies SET ... WHERE handle = $N RETURNING ...``.  The database
rejects the statement when a SET target is not a column; otherwise every row
whose (old) handle matches is updated, the first updated row is returned,
and `NotFoundError` is thrown when no row matched. -/
def update (st : DbState) (handle : String) (data : List (String × Value)) :
    Except Err (CompanyRow × DbState) :=
  match sqlForPartialUpdate data jsToSql with
  | .error e => .error e
  | .ok _ =>
    let assigns := resolvedAssigns data
    if assigns.all (fun a => tableCols.contains a.1) then
      let newCompanies := st.companies.map (fun r =>
        if r.handle = Value.vstr handle then applyAssignsC r assigns else r)
      let returned := (st.companies.filter (fun r => decide (r.handle = Value.vstr handle))).map
        (fun r => applyAssignsC r assigns)
      match returned with
      | [] => .error (Err.notFound ("No company: " ++ handle))
      | row :: _ => .ok (row, { st with companies := newCompanies })
    else
      .error (Err.sqlError "column does not exist")

end Company

namespace Job

/-- The `allowedFilters` list of `Job.findAll`. -/
def allowedFilters : List String := ["title", "minSalary", "hasEquity"]

/-- `Job.findAll(searchFilters)` from `models/job.js`: rejects filter keys
outside the allow-list, then runs the assembled SELECT — `title` a
case-insensitive substring match, `minSalary` an inclusive lower bound, and
`hasEquity === 'true'` adding the condition `equity > 0` (any other value
adds no condition) — ordered by `id`. -/
def findAll (st : DbState) (searchFilters : List (String × Value)) :
    Except Err (List JobRow) :=
  let invalidFilters := invalidFiltersOf allowedFilters searchFilters
  if invalidFilters.length > 0 then
    .error (Err.badRequest ("Invalid filter(s): " ++ String.intercalate ", " invalidFilters))
  else
    let title := lookupStr searchFilters "title"
    let minSalary := lookupStr searchFilters "minSalary"
    let hasEquity := lookupStr searchFilters "hasEquity"
    let conds : List (JobRow → Bool) :=
      (match title with
       | some t => [fun r => sqlILikeContains r.title t]
       | none => []) ++
      (match minSalary with
       | some m => [fun r => sqlGe r.salary m]
       | none => []) ++
      (if hasEquity = some (Value.vstr "true") then [fun r => sqlGtZero r.equity] else [])
    let rows := st.jobs.filter (fun r => conds.all (fun c => c r))
    .ok (sortByLe (fun a b => valueLe a.id b.id) rows)

/-- The columns of the `jobs` table. -/
def tableCols : List String := ["id", "title", "salary", "equity", "company_handle"]

/-- The `jsToSql` override mapping `Job.update` passes to
`sqlForPartialUpdate`. -/
def jsToSql : List (String × String) := [("companyHandle", "company_handle")]

end Job

/-- SQL `SET "<col>"=<v>` applied to a job row, as `CompanyRow.setCol`. -/
def JobRow.setCol (r : JobRow) (col : String) (v : Value) : JobRow :=
  if col = "id" then { r with id := v }
  else if col = "title" then { r with title := v }
  else if col = "salary" then { r with salary := v }
  else if col = "equity" then { r with equity := v }
  else if col = "company_handle" then { r with company_handle := v }
  else r

/-- Read a job row's column by name (`NULL` for an unknown name). -/
def JobRow.getCol (r : JobRow) (col : String) : Value :=
  if col = "id" then r.id
  else if col = "title" then r.title
  else if col = "salary" then r.salary
  else if col = "equity" then r.equity
  else if col = "company_handle" then r.company_handle
  else Value.vnull

/-- Apply a SET list (resolved column name, bound value) left to right. -/
def applyAssignsJ (r : JobRow) (assigns : List (String × Value)) : JobRow :=
  assigns.foldl (fun acc a => acc.setCol a.1 a.2) r

namespace Job

/-- The SET targets of `Job.update`'s statement, in order. -/
def resolvedAssigns (data : List (String × Value)) : List (String × Value) :=
  data.map (fun kv => (resolveColumn jsToSql kv.1, kv.2))

/-- `Job.update(id, data)` from `models/job.js`: same shape as
`Company.update`, keyed by `id`, with override `companyHandle →
company_handle`. -/
def update (st : DbState) (id : Int) (data : List (String × Value)) :
    Except Err (JobRow × DbState) :=
  match sqlForPartialUpdate data jsToSql with
  | .error e => .error e
  | .ok _ =>
    let assigns := resolvedAssigns data
    if assigns.all (fun a => tableCols.contains a.1) then
      let newJobs := st.jobs.map (fun r =>
        if r.id = Value.vint id then applyAssignsJ r assigns else r)
      let returned := (st.jobs.filter (fun r => decide (r.id = Value.vint id))).map
        (fun r => applyAssignsJ r assigns)
      match returned with
      | [] => .error (Err.notFound ("No job found with id: " ++ toString id))
      | row :: _ => .ok (row, { st with jobs := newJobs })
    else
      .error (Err.sqlError "column does not exist")

end Job

/-! ## Helper lemmas -/

/-- Decidable equality for `Except`, so concrete runs can be checked by `decide`. -/
instance exceptDecEq {ε α : Type} [DecidableEq ε] [DecidableEq α] :
    DecidableEq (Except ε α) := fun
  | .ok a, .ok b =>
    match decEq a b with
    | isTrue h => isTrue (by rw [h])
    | isFalse h => isFalse (fun hh => h (by injection hh))
  | .ok _, .error _ => isFalse (fun hh => Except.noConfusion hh)
  | .error _, .ok _ => isFalse (fun hh => Except.noConfusion hh)
  | .error a, .error b =>
    match decEq a b with
    | isTrue h => isTrue (by rw [h])
    | isFalse h => isFalse (fun hh => h (by injection hh))

theorem buildCols_length (ov : List (String × String)) :
    ∀ (ks : List String) (idx : Nat), (buildCols ov ks idx).length = ks.length := by
  intro ks
  induction ks with
  | nil => intro idx; rfl
  | cons k ks ih => intro idx; simp [buildCols, ih]

theorem buildCols_getElem? (ov : List (String × String)) :
    ∀ (ks : List String) (idx i : Nat),
      (buildCols ov ks idx)[i]? = ks[i]?.map (fun k => quoteAssign ov k (idx + i)) := by
  intro ks
  induction ks with
  | nil => intro idx i; simp [buildCols]
  | cons k ks ih =>
    intro idx i
    cases i with
    | zero => simp [buildCols]
    | succ n =>
      simp only [buildCols, List.getElem?_cons_succ, ih (idx + 1) n]
      have : idx + 1 + n = idx + (n + 1) := by omega
      rw [this]

theorem assignmentList_length (data : List (String × Value)) (ov : List (String × String)) :
    (assignmentList data ov).length = data.length := by
  simp [assignmentList, buildCols_length]

theorem assignmentList_getElem? (data : List (String × Value)) (ov : List (String × String))
    (i : Nat) :
    (assignmentList data ov)[i]? = (data[i]?.map Prod.fst).map (fun k => quoteAssign ov k i) := by
  simp [assignmentList, buildCols_getElem?, List.getElem?_map, Nat.zero_add]

theorem mem_insertLe {α : Type} (le : α → α → Bool) (a x : α) :
    ∀ l : List α, x ∈ insertLe le a l ↔ x = a ∨ x ∈ l := by
  intro l
  induction l with
  | nil => simp [insertLe]
  | cons b bs ih =>
    by_cases hle : le a b = true
    · simp [insertLe, hle]
    · simp only [insertLe, hle]
      simp [ih]
      tauto

theorem mem_sortByLe {α : Type} (le : α → α → Bool) (x : α) :
    ∀ l : List α, x ∈ sortByLe le l ↔ x ∈ l := by
  intro l
  induction l with
  | nil => simp [sortByLe]
  | cons a as ih => simp [sortByLe, mem_insertLe, ih]

theorem CompanyRow.setCol_keeps_handle (r : CompanyRow) (col : String) (v : Value)
    (h : col ≠ "handle") : (r.setCol col v).handle = r.handle := by
  unfold CompanyRow.setCol
  split_ifs with h1 h2 h3 h4 h5 <;> first | rfl | exact absurd h1 h

theorem CompanyRow.setCol_keeps_name (r : CompanyRow) (col : String) (v : Value)
    (h : col ≠ "name") : (r.setCol col v).name = r.name := by
  unfold CompanyRow.setCol
  split_ifs with h1 h2 h3 h4 h5 <;> first | rfl | exact absurd h2 h

theorem CompanyRow.setCol_keeps_description (r : CompanyRow) (col : String) (v : Value)
    (h : col ≠ "description") : (r.setCol col v).description = r.description := by
  unfold CompanyRow.setCol
  split_ifs with h1 h2 h3 h4 h5 <;> first | rfl | exact absurd h3 h

theorem CompanyRow.setCol_keeps_num_employees (r : CompanyRow) (col : String) (v : Value)
    (h : col ≠ "num_employees") : (r.setCol col v).num_employees = r.num_employees := by
  unfold CompanyRow.setCol
  split_ifs with h1 h2 h3 h4 h5 <;> first | rfl | exact absurd h4 h

theorem CompanyRow.setCol_keeps_logo_url (r : CompanyRow) (col : String) (v : Value)
    (h : col ≠ "logo_url") : (r.setCol col v).logo_url = r.logo_url := by
  unfold CompanyRow.setCol
  split_ifs with h1 h2 h3 h4 h5 <;> first | rfl | exact absurd h5 h

theorem CompanyRow.getCol_setCol_ne_company (r : CompanyRow) (col : String) (v : Value)
    (col' : String) (h : col' ≠ col) : (r.setCol col v).getCol col' = r.getCol col' := by
  unfold CompanyRow.getCol
  split_ifs with h1 h2 h3 h4 h5
  · exact r.setCol_keeps_handle col v (fun hc => h (h1.trans hc.symm))
  · exact r.setCol_keeps_name col v (fun hc => h (h2.trans hc.symm))
  · exact r.setCol_keeps_description col v (fun hc => h (h3.trans hc.symm))
  · exact r.setCol_keeps_num_employees col v (fun hc => h (h4.trans hc.symm))
  · exact r.setCol_keeps_logo_url col v (fun hc => h (h5.trans hc.symm))
  · rfl

theorem JobRow.setCol_keeps_id (r : JobRow) (col : String) (v : Value)
    (h : col ≠ "id") : (r.setCol col v).id = r.id := by
  unfold JobRow.setCol
  split_ifs with h1 h2 h3 h4 h5 <;> first | rfl | exact absurd h1 h

theorem JobRow.setCol_keeps_title (r : JobRow) (col : String) (v : Value)
    (h : col ≠ "title") : (r.setCol col v).title = r.title := by
  unfold JobRow.setCol
  split_ifs with h1 h2 h3 h4 h5 <;> first | rfl | exact absurd h2 h

theorem JobRow.setCol_keeps_salary (r : JobRow) (col : String) (v : Value)
    (h : col ≠ "salary") : (r.setCol col v).salary = r.salary := by
  unfold JobRow.setCol
  split_ifs with h1 h2 h3 h4 h5 <;> first | rfl | exact absurd h3 h

theorem JobRow.setCol_keeps_equity (r : JobRow) (col : String) (v : Value)
    (h : col ≠ "equity") : (r.setCol col v).equity = r.equity := by
  unfold JobRow.setCol
  split_ifs with h1 h2 h3 h4 h5 <;> first | rfl | exact absurd h4 h

theorem JobRow.setCol_keeps_company_handle (r : JobRow) (col : String) (v : Value)
    (h : col ≠ "company_handle") : (r.setCol col v).company_handle = r.company_handle := by
  unfold JobRow.setCol
  split_ifs with h1 h2 h3 h4 h5 <;> first | rfl | exact absurd h5 h

theorem JobRow.getCol_setCol_ne_job (r : JobRow) (col : String) (v : Value)
    (col' : String) (h : col' ≠ col) : (r.setCol col v).getCol col' = r.getCol col' := by
  unfold JobRow.getCol
  split_ifs with h1 h2 h3 h4 h5
  · exact r.setCol_keeps_id col v (fun hc => h (h1.trans hc.symm))
  · exact r.setCol_keeps_title col v (fun hc => h (h2.trans hc.symm))
  · exact r.setCol_keeps_salary col v (fun hc => h (h3.trans hc.symm))
  · exact r.setCol_keeps_equity col v (fun hc => h (h4.trans hc.symm))
  · exact r.setCol_keeps_company_handle col v (fun hc => h (h5.trans hc.symm))
  · rfl

theorem applyAssignsC_getCol (col : String) :
    ∀ (assigns : List (String × Value)) (r : CompanyRow),
      col ∉ assigns.map Prod.fst → (applyAssignsC r assigns).getCol col = r.getCol col := by
  intro assigns
  induction assigns with
  | nil => intro r _; rfl
  | cons a as ih =>
    intro r h
    simp only [List.map_cons, List.mem_cons, not_or] at h
    have step : applyAssignsC r (a :: as) = applyAssignsC (r.setCol a.1 a.2) as := rfl
    rw [step, ih _ h.2, CompanyRow.getCol_setCol_ne_company r a.1 a.2 col h.1]

theorem applyAssignsJ_getCol (col : String) :
    ∀ (assigns : List (String × Value)) (r : JobRow),
      col ∉ assigns.map Prod.fst → (applyAssignsJ r assigns).getCol col = r.getCol col := by
  intro assigns
  induction assigns with
  | nil => intro r _; rfl
  | cons a as ih =>
    intro r h
    simp only [List.map_cons, List.mem_cons, not_or] at h
    have step : applyAssignsJ r (a :: as) = applyAssignsJ (r.setCol a.1 a.2) as := rfl
    rw [step, ih _ h.2, JobRow.getCol_setCol_ne_job r a.1 a.2 col h.1]

theorem CompanyRow.getCol_handle (r : CompanyRow) : r.getCol "handle" = r.handle := rfl

theorem JobRow.getCol_id (r : JobRow) : r.getCol "id" = r.id := rfl

/-- Under the company override mapping, the only data key that resolves to
the `handle` column is `handle` itself. -/
theorem company_resolve_ne_handle (k : String) (hk : k ≠ "handle") :
    resolveColumn Company.jsToSql k ≠ "handle" := by
  by_cases h1 : k = "numEmployees"
  · subst h1; decide
  by_cases h2 : k = "logoUrl"
  · subst h2; decide
  have : resolveColumn Company.jsToSql k = k := by
    simp [resolveColumn, lookupStr, Company.jsToSql, Ne.symm h1, Ne.symm h2]
  rw [this]; exact hk

/-- Under the job override mapping, the only data key that resolves to the
`id` column is `id` itself. -/
theorem job_resolve_ne_id (k : String) (hk : k ≠ "id") :
    resolveColumn Job.jsToSql k ≠ "id" := by
  by_cases h1 : k = "companyHandle"
  · subst h1; decide
  have : resolveColumn Job.jsToSql k = k := by
    simp [resolveColumn, lookupStr, Job.jsToSql, Ne.symm h1]
  rw [this]; exact hk

theorem company_handle_not_assigned (data : List (String × Value))
    (h : "handle" ∉ data.map Prod.fst) :
    "handle" ∉ (Company.resolvedAssigns data).map Prod.fst := by
  simp only [Company.resolvedAssigns, List.map_map, List.mem_map]
  rintro ⟨kv, hkv, hres⟩
  exact company_resolve_ne_handle kv.1
    (fun hh => h (List.mem_map.mpr ⟨kv, hkv, hh⟩)) hres

theorem job_id_not_assigned (data : List (String × Value))
    (h : "id" ∉ data.map Prod.fst) :
    "id" ∉ (Job.resolvedAssigns data).map Prod.fst := by
  simp only [Job.resolvedAssigns, List.map_map, List.mem_map]
  rintro ⟨kv, hkv, hres⟩
  exact job_resolve_ne_id kv.1
    (fun hh => h (List.mem_map.mpr ⟨kv, hkv, hh⟩)) hres

/-- Both `findAll`s take the invalid-filter branch exactly on a nonempty
offender list, with the joined message. -/
theorem company_findAll_invalid (st : DbState) (fs : List (String × Value))
    (h : invalidFiltersOf Company.allowedFilters fs ≠ []) :
    Company.findAll st fs = .error (Err.badRequest
      ("Invalid filter(s): " ++ String.intercalate ", "
        (invalidFiltersOf Company.allowedFilters fs))) := by
  unfold Company.findAll
  rw [if_pos (List.length_pos.mpr h)]

theorem job_findAll_invalid (st : DbState) (fs : List (String × Value))
    (h : invalidFiltersOf Job.allowedFilters fs ≠ []) :
    Job.findAll st fs = .error (Err.badRequest
      ("Invalid filter(s): " ++ String.intercalate ", "
        (invalidFiltersOf Job.allowedFilters fs))) := by
  unfold Job.findAll
  rw [if_pos (List.length_pos.mpr h)]

/-- With all filter keys allowed and consistent bounds, `Company.findAll`
reaches the SELECT and succeeds. -/
theorem company_findAll_minmax (st : DbState) (fs : List (String × Value))
    (hb : invalidFiltersOf Company.allowedFilters fs = [])
    (hj : jsGt (lookupStr fs "minEmployees") (lookupStr fs "maxEmployees") = true) :
    Company.findAll st fs =
      .error (Err.badRequest "minEmployees cannot be greater than maxEmployees") := by
  unfold Company.findAll
  rw [if_neg (by simp [hb]), if_pos hj]

theorem company_findAll_ok (st : DbState) (fs : List (String × Value))
    (hb : invalidFiltersOf Company.allowedFilters fs = [])
    (hj : jsGt (lookupStr fs "minEmployees") (lookupStr fs "maxEmployees") = false) :
    ∃ l, Company.findAll st fs = .ok l := by
  unfold Company.findAll
  rw [if_neg (by simp [hb]), if_neg (by simp [hj])]
  exact ⟨_, rfl⟩

theorem job_findAll_ok (st : DbState) (fs : List (String × Value))
    (hb : invalidFiltersOf Job.allowedFilters fs = []) :
    ∃ l, Job.findAll st fs = .ok l := by
  unfold Job.findAll
  rw [if_neg (by simp [hb])]
  exact ⟨_, rfl⟩

/-- The two error messages of `Company.findAll` are distinct: the
inconsistent-bounds message never has the invalid-filter form. -/
theorem minmax_msg_ne_invalid (m : String) :
    "minEmployees cannot be greater than maxEmployees" ≠ "Invalid filter(s): " ++ m := by
  intro h
  have h2 : ("minEmployees cannot be greater than maxEmployees").data =
      ("Invalid filter(s): " ++ m).data := congrArg String.data h
  rw [String.data_append] at h2
  have h3 := congrArg List.head? h2
  rw [show "Invalid filter(s): ".data = 'I' :: "nvalid filter(s): ".data from by decide] at h3
  simp at h3

theorem resolveColumn_of_some {ov : List (String × String)} {k c : String}
    (hc : lookupStr ov k = some c) (hne : c ≠ "") : resolveColumn ov k = c := by
  unfold resolveColumn
  rw [hc]
  exact if_neg hne

theorem resolveColumn_of_none {ov : List (String × String)} {k : String}
    (hn : lookupStr ov k = none) : resolveColumn ov k = k := by
  unfold resolveColumn
  rw [hn]

theorem resolveColumn_of_falsy {ov : List (String × String)} {k : String}
    (hc : lookupStr ov k = some "") : resolveColumn ov k = k := by
  unfold resolveColumn
  rw [hc]
  rfl

theorem assignmentList_get_some {data : List (String × Value)} {i : Nat}
    {kv : String × Value} (ov : List (String × String)) (hkv : data[i]? = some kv) :
    (assignmentList data ov)[i]? = some (quoteAssign ov kv.1 i) := by
  rw [assignmentList_getElem?, hkv]
  rfl

/-! ## Claims -/

/-- C1: on every non-empty update object, `sqlForPartialUpdate` returns the
comma-joined assignment list and the raw value list; that assignment list
has exactly one entry per field, its `i`-th entry (0-based) is the quoted
resolved column followed by placeholder `$(i+1)` — so placeholders run
`1..N` in input order — the `i`-th value is the `i`-th field's raw value,
and the assignment list depends only on the field names, never on the
values (no value is interpolated into the assignment string). -/
theorem C1_partialUpdate_shape :
    ∀ (data : List (String × Value)) (ov : List (String × String)),
      data ≠ [] →
      sqlForPartialUpdate data ov =
        .ok { setCols := String.intercalate ", " (assignmentList data ov),
              values := data.map Prod.snd } ∧
      (assignmentList data ov).length = data.length ∧
      (∀ (i : Nat) (kv : String × Value), data[i]? = some kv →
        (assignmentList data ov)[i]? =
          some ("\"" ++ resolveColumn ov kv.1 ++ "\"=$" ++ toString (i + 1)) ∧
        (data.map Prod.snd)[i]? = some kv.2) ∧
      (∀ data' : List (String × Value),
        data'.map Prod.fst = data.map Prod.fst →
        assignmentList data' ov = assignmentList data ov) := by
  intro data ov hne
  refine ⟨?_, assignmentList_length data ov, ?_, ?_⟩
  · simp only [sqlForPartialUpdate]
    rw [if_neg (by simp [List.length_eq_zero, hne])]
    rfl
  · intro i kv hkv
    constructor
    · rw [assignmentList_get_some ov hkv]
      rfl
    · rw [List.getElem?_map, hkv]
      rfl
  · intro data' hdd
    unfold assignmentList
    rw [hdd]

theorem C1_partialUpdate_shape_witness :
    sqlForPartialUpdate [("a", Value.vint 1), ("b", Value.vstr "x")] [("a", "col_a")] =
      .ok { setCols := String.intercalate ", "
              (assignmentList [("a", Value.vint 1), ("b", Value.vstr "x")] [("a", "col_a")]),
            values := [Value.vint 1, Value.vstr "x"] } ∧
    (assignmentList [("a", Value.vint 1), ("b", Value.vstr "x")] [("a", "col_a")]).length = 2 :=
  ⟨(C1_partialUpdate_shape [("a", Value.vint 1), ("b", Value.vstr "x")] [("a", "col_a")]
      (by decide)).1,
   (C1_partialUpdate_shape [("a", Value.vint 1), ("b", Value.vstr "x")] [("a", "col_a")]
      (by decide)).2.1⟩

/-- C2: `sqlForPartialUpdate` succeeds exactly on a non-empty fields object,
and on the empty object it fails with `BadRequestError("No data")` for every
override mapping. -/
theorem C2_partialUpdate_empty_iff :
    ∀ (fields : List (String × Value)) (ov : List (String × String)),
      isOkB (sqlForPartialUpdate fields ov) = !fields.isEmpty ∧
      sqlForPartialUpdate [] ov = .error (Err.badRequest "No data") := by
  intro fields ov
  refine ⟨?_, rfl⟩
  cases fields with
  | nil => rfl
  | cons a as => rfl

/-- C3 counterexample: `"a"` is a key of the override mapping `{a: ""}`, yet
the emitted assignment for field `"a"` is `"a"=$1`, not the override-applied
`""=$1` — so the override is not applied for every key of the mapping. -/
theorem C3_override_counterexample :
    lookupStr [("a", "")] "a" = some "" ∧
    sqlForPartialUpdate [("a", Value.vint 1)] [("a", "")] =
      .ok { setCols := "\"a\"=$1", values := [Value.vint 1] } ∧
    "\"a\"=$1" ≠ "\"" ++ "" ++ "\"=$1" := by
  refine ⟨rfl, rfl, ?_⟩
  decide

/-- C3 amended: the override is applied exactly for field names that are
keys of the override mapping with a non-empty (truthy) value; a field name
absent from the mapping — and equally one whose override value is the falsy
`""` — passes through unchanged as its own column name, universally; and
for override `{numEmployees: "num_employees"}` on
`{numEmployees: 5, logoUrl: "x"}` the output is
`"num_employees"=$1, "logoUrl"=$2` with values `[5, "x"]`. -/
theorem C3_override_amended :
    (∀ (ov : List (String × String)) (data : List (String × Value)) (i : Nat)
       (kv : String × Value) (c : String),
       data[i]? = some kv → lookupStr ov kv.1 = some c → c ≠ "" →
       (assignmentList data ov)[i]? = some ("\"" ++ c ++ "\"=$" ++ toString (i + 1))) ∧
    (∀ (ov : List (String × String)) (data : List (String × Value)) (i : Nat)
       (kv : String × Value),
       data[i]? = some kv → lookupStr ov kv.1 = none →
       (assignmentList data ov)[i]? = some ("\"" ++ kv.1 ++ "\"=$" ++ toString (i + 1))) ∧
    (∀ (ov : List (String × String)) (data : List (String × Value)) (i : Nat)
       (kv : String × Value),
       data[i]? = some kv → lookupStr ov kv.1 = some "" →
       (assignmentList data ov)[i]? = some ("\"" ++ kv.1 ++ "\"=$" ++ toString (i + 1))) ∧
    sqlForPartialUpdate [("numEmployees", Value.vint 5), ("logoUrl", Value.vstr "x")]
        [("numEmployees", "num_employees")] =
      .ok { setCols := "\"num_employees\"=$1, \"logoUrl\"=$2",
            values := [Value.vint 5, Value.vstr "x"] } := by
  refine ⟨?_, ?_, ?_, rfl⟩
  · intro ov data i kv c hkv hc hne
    rw [assignmentList_get_some ov hkv]
    unfold quoteAssign
    rw [resolveColumn_of_some hc hne]
  · intro ov data i kv hkv hn
    rw [assignmentList_get_some ov hkv]
    unfold quoteAssign
    rw [resolveColumn_of_none hn]
  · intro ov data i kv hkv hc
    rw [assignmentList_get_some ov hkv]
    unfold quoteAssign
    rw [resolveColumn_of_falsy hc]

theorem C3_override_amended_witness :
    (assignmentList [("numEmployees", Value.vint 5)] [("numEmployees", "num_employees")])[0]? =
      some "\"num_employees\"=$1" ∧
    (assignmentList [("logoUrl", Value.vstr "x")] [("logoUrl", "")])[0]? =
      some "\"logoUrl\"=$1" :=
  ⟨C3_override_amended.1 [("numEmployees", "num_employees")] [("numEmployees", Value.vint 5)]
     0 ("numEmployees", Value.vint 5) "num_employees" rfl rfl (by decide),
   C3_override_amended.2.2.1 [("logoUrl", "")] [("logoUrl", Value.vstr "x")]
     0 ("logoUrl", Value.vstr "x") rfl rfl⟩

/-- C9: for every store state and every key — existing or not — an empty
update object makes `Company.update` and `Job.update` fail with
`BadRequestError("No data")`: the check inside `sqlForPartialUpdate` fires
before any query is issued, so it takes precedence over `NotFoundError`. -/
theorem C9_empty_update_before_storage :
    ∀ (st : DbState) (handle : String) (id : Int),
      Company.update st handle [] = .error (Err.badRequest "No data") ∧
      Job.update st id [] = .error (Err.badRequest "No data") :=
  fun _ _ _ => ⟨rfl, rfl⟩

/-- C10: the resolved column of the `i`-th field is the override value when
that value is truthy and the field name itself otherwise — in particular an
override entry with the falsy value `""` is silently ignored, as the
concrete run with override `{a: ""}` shows. -/
theorem C10_falsy_override_ignored :
    (∀ (ov : List (String × String)) (data : List (String × Value)) (i : Nat)
       (kv : String × Value), data[i]? = some kv →
       (assignmentList data ov)[i]? =
         some ("\"" ++ (match lookupStr ov kv.1 with
                        | some c => if c = "" then kv.1 else c
                        | none => kv.1) ++ "\"=$" ++ toString (i + 1))) ∧
    sqlForPartialUpdate [("a", Value.vint 1)] [("a", "")] =
      .ok { setCols := "\"a\"=$1", values := [Value.vint 1] } := by
  refine ⟨?_, rfl⟩
  intro ov data i kv hkv
  rw [assignmentList_get_some ov hkv]
  rfl

theorem C10_falsy_override_witness :
    (assignmentList [("a", Value.vint 1)] [("a", "")])[0]? = some "\"a\"=$1" :=
  C10_falsy_override_ignored.1 [("a", "")] [("a", Value.vint 1)] 0 ("a", Value.vint 1) rfl

/-- C6: for both models, `findAll` fails with a `BadRequestError` naming all
the rejected keys (joined with a comma) exactly when some filter key lies
outside the entity's allow-list — for every store state, so before any
query — and when every key is allowed no invalid-filter error is raised. -/
theorem C6_filter_allowlist :
    (∀ (st : DbState) (fs : List (String × Value)),
       (invalidFiltersOf Company.allowedFilters fs ≠ [] →
         Company.findAll st fs = .error (Err.badRequest
           ("Invalid filter(s): " ++ String.intercalate ", "
             (invalidFiltersOf Company.allowedFilters fs)))) ∧
       (invalidFiltersOf Company.allowedFilters fs = [] →
         ∀ m, Company.findAll st fs ≠
           .error (Err.badRequest ("Invalid filter(s): " ++ m)))) ∧
    (∀ (st : DbState) (fs : List (String × Value)),
       (invalidFiltersOf Job.allowedFilters fs ≠ [] →
         Job.findAll st fs = .error (Err.badRequest
           ("Invalid filter(s): " ++ String.intercalate ", "
             (invalidFiltersOf Job.allowedFilters fs)))) ∧
       (invalidFiltersOf Job.allowedFilters fs = [] →
         ∀ m, Job.findAll st fs ≠
           .error (Err.badRequest ("Invalid filter(s): " ++ m)))) := by
  constructor
  · intro st fs
    refine ⟨company_findAll_invalid st fs, ?_⟩
    intro hb m hcontra
    by_cases hj : jsGt (lookupStr fs "minEmployees") (lookupStr fs "maxEmployees") = true
    · rw [company_findAll_minmax st fs hb hj] at hcontra
      injection hcontra with h1
      injection h1 with h2
      exact minmax_msg_ne_invalid m h2
    · obtain ⟨l, hl⟩ := company_findAll_ok st fs hb (by simpa using hj)
      rw [hl] at hcontra
      exact Except.noConfusion hcontra
  · intro st fs
    refine ⟨job_findAll_invalid st fs, ?_⟩
    intro hb m hcontra
    obtain ⟨l, hl⟩ := job_findAll_ok st fs hb
    rw [hl] at hcontra
    exact Except.noConfusion hcontra

theorem C6_filter_allowlist_witness :
    Company.findAll (DbState.mk [] []) [("foo", Value.vint 1)] =
      .error (Err.badRequest "Invalid filter(s): foo") ∧
    Company.findAll (DbState.mk [] []) [("name", Value.vstr "c1")] ≠
      .error (Err.badRequest ("Invalid filter(s): " ++ "name")) ∧
    Job.findAll (DbState.mk [] []) [("foo", Value.vint 1), ("bar", Value.vnull)] =
      .error (Err.badRequest "Invalid filter(s): foo, bar") ∧
    Job.findAll (DbState.mk [] []) [("title", Value.vstr "t")] ≠
      .error (Err.badRequest ("Invalid filter(s): " ++ "t")) :=
  ⟨(C6_filter_allowlist.1 (DbState.mk [] []) [("foo", Value.vint 1)]).1 (by decide),
   (C6_filter_allowlist.1 (DbState.mk [] []) [("name", Value.vstr "c1")]).2 (by decide) "name",
   (C6_filter_allowlist.2 (DbState.mk [] []) [("foo", Value.vint 1), ("bar", Value.vnull)]).1
     (by decide),
   (C6_filter_allowlist.2 (DbState.mk [] []) [("title", Value.vstr "t")]).2 (by decide) "t"⟩

/-- C7: whenever a company filter mapping carries integer bounds with
`minEmployees > maxEmployees`, `Company.findAll` fails with a
`BadRequestError` whose message depends only on the filters — the same
error for every store state, so before any query is issued. -/
theorem C7_minmax_before_storage :
    ∀ (fs : List (String × Value)) (m n : Int),
      lookupStr fs "minEmployees" = some (Value.vint m) →
      lookupStr fs "maxEmployees" = some (Value.vint n) →
      m > n →
      ∀ st : DbState, Company.findAll st fs = .error (Err.badRequest
        (if invalidFiltersOf Company.allowedFilters fs = []
         then "minEmployees cannot be greater than maxEmployees"
         else "Invalid filter(s): " ++ String.intercalate ", "
                (invalidFiltersOf Company.allowedFilters fs))) := by
  intro fs m n hmin hmax hmn st
  by_cases hb : invalidFiltersOf Company.allowedFilters fs = []
  · rw [if_pos hb]
    exact company_findAll_minmax st fs hb (by rw [hmin, hmax]; simp [jsGt, hmn])
  · rw [if_neg hb]
    exact company_findAll_invalid st fs hb

theorem C7_minmax_witness :
    Company.findAll (DbState.mk [] [])
        [("minEmployees", Value.vint 10), ("maxEmployees", Value.vint 5)] =
      .error (Err.badRequest "minEmployees cannot be greater than maxEmployees") :=
  C7_minmax_before_storage [("minEmployees", Value.vint 10), ("maxEmployees", Value.vint 5)]
    10 5 rfl rfl (by decide) (DbState.mk [] [])

/-- `Job.findAll` with only a `hasEquity` filter reaches the SELECT, whose
single candidate condition is `equity > 0` under the string-equality test. -/
theorem job_findAll_hasEquity (st : DbState) (v : Value) :
    Job.findAll st [("hasEquity", v)] =
      .ok (sortByLe (fun a b => valueLe a.id b.id)
        (st.jobs.filter (fun r =>
          (if some v = some (Value.vstr "true")
           then [fun r' : JobRow => sqlGtZero r'.equity]
           else ([] : List (JobRow → Bool))).all (fun c => c r)))) := rfl

theorem job_findAll_nil (st : DbState) :
    Job.findAll st [] =
      .ok (sortByLe (fun a b => valueLe a.id b.id)
        (st.jobs.filter (fun _ => true))) := rfl

/-- C8: with `hasEquity = "true"` the result of `Job.findAll` contains
exactly the stored jobs whose equity is strictly greater than zero (zero or
`NULL` equity rows are excluded), and such a query always succeeds; with
`hasEquity` bound to any other value, or with no filters at all, the result
contains every stored job regardless of equity. -/
theorem C8_hasEquity_filter :
    (∀ (st : DbState) (l : List JobRow),
       Job.findAll st [("hasEquity", Value.vstr "true")] = .ok l →
       ∀ j, j ∈ l ↔ j ∈ st.jobs ∧ sqlGtZero j.equity = true) ∧
    (∀ st : DbState, isOkB (Job.findAll st [("hasEquity", Value.vstr "true")]) = true) ∧
    (∀ (st : DbState) (v : Value), v ≠ Value.vstr "true" →
       ∀ l, Job.findAll st [("hasEquity", v)] = .ok l → ∀ j, j ∈ l ↔ j ∈ st.jobs) ∧
    (∀ (st : DbState) (l : List JobRow), Job.findAll st [] = .ok l →
       ∀ j, j ∈ l ↔ j ∈ st.jobs) := by
  refine ⟨?_, ?_, ?_, ?_⟩
  · intro st l h j
    rw [job_findAll_hasEquity st (Value.vstr "true"), if_pos rfl] at h
    have hl := Except.ok.inj h
    subst hl
    simp [mem_sortByLe, List.mem_filter, List.all_cons, List.all_nil, Bool.and_true]
  · intro st
    rfl
  · intro st v hv l h j
    rw [job_findAll_hasEquity st v, if_neg (by simp [hv])] at h
    have hl := Except.ok.inj h
    subst hl
    simp [mem_sortByLe, List.mem_filter, List.all_nil]
  · intro st l h j
    rw [job_findAll_nil st] at h
    have hl := Except.ok.inj h
    subst hl
    simp [mem_sortByLe, List.mem_filter]

theorem C8_hasEquity_filter_witness :
    (JobRow.mk (Value.vint 2) Value.vnull Value.vnull (Value.vrat 0) Value.vnull ∈
        [JobRow.mk (Value.vint 1) Value.vnull Value.vnull (Value.vrat 1) Value.vnull] ↔
      JobRow.mk (Value.vint 2) Value.vnull Value.vnull (Value.vrat 0) Value.vnull ∈
        (DbState.mk []
          [JobRow.mk (Value.vint 1) Value.vnull Value.vnull (Value.vrat 1) Value.vnull,
           JobRow.mk (Value.vint 2) Value.vnull Value.vnull (Value.vrat 0) Value.vnull,
           JobRow.mk (Value.vint 3) Value.vnull Value.vnull Value.vnull Value.vnull]).jobs ∧
      sqlGtZero (JobRow.mk (Value.vint 2) Value.vnull Value.vnull (Value.vrat 0)
        Value.vnull).equity = true) ∧
    (JobRow.mk (Value.vint 2) Value.vnull Value.vnull (Value.vrat 0) Value.vnull ∈
        [JobRow.mk (Value.vint 1) Value.vnull Value.vnull (Value.vrat 1) Value.vnull,
         JobRow.mk (Value.vint 2) Value.vnull Value.vnull (Value.vrat 0) Value.vnull,
         JobRow.mk (Value.vint 3) Value.vnull Value.vnull Value.vnull Value.vnull] ↔
      JobRow.mk (Value.vint 2) Value.vnull Value.vnull (Value.vrat 0) Value.vnull ∈
        (DbState.mk []
          [JobRow.mk (Value.vint 1) Value.vnull Value.vnull (Value.vrat 1) Value.vnull,
           JobRow.mk (Value.vint 2) Value.vnull Value.vnull (Value.vrat 0) Value.vnull,
           JobRow.mk (Value.vint 3) Value.vnull Value.vnull Value.vnull Value.vnull]).jobs) :=
  ⟨C8_hasEquity_filter.1
      (DbState.mk []
        [JobRow.mk (Value.vint 1) Value.vnull Value.vnull (Value.vrat 1) Value.vnull,
         JobRow.mk (Value.vint 2) Value.vnull Value.vnull (Value.vrat 0) Value.vnull,
         JobRow.mk (Value.vint 3) Value.vnull Value.vnull Value.vnull Value.vnull])
      [JobRow.mk (Value.vint 1) Value.vnull Value.vnull (Value.vrat 1) Value.vnull] rfl
      (JobRow.mk (Value.vint 2) Value.vnull Value.vnull (Value.vrat 0) Value.vnull),
   C8_hasEquity_filter.2.2.1
      (DbState.mk []
        [JobRow.mk (Value.vint 1) Value.vnull Value.vnull (Value.vrat 1) Value.vnull,
         JobRow.mk (Value.vint 2) Value.vnull Value.vnull (Value.vrat 0) Value.vnull,
         JobRow.mk (Value.vint 3) Value.vnull Value.vnull Value.vnull Value.vnull])
      (Value.vstr "false") (by decide)
      [JobRow.mk (Value.vint 1) Value.vnull Value.vnull (Value.vrat 1) Value.vnull,
       JobRow.mk (Value.vint 2) Value.vnull Value.vnull (Value.vrat 0) Value.vnull,
       JobRow.mk (Value.vint 3) Value.vnull Value.vnull Value.vnull Value.vnull] rfl
      (JobRow.mk (Value.vint 2) Value.vnull Value.vnull (Value.vrat 0) Value.vnull)⟩

/-- C5: `Company.get` throws `NotFoundError` when no company has the handle;
but on a company with two jobs it returns the raw array of the two join
rows, not a single company record with an embedded jobs sequence — the
behavior the spec flags as contradicting the function's own documented
return shape. -/
theorem C5_get_join_rows_eval :
    Company.get (DbState.mk [] []) "c1" = .error (Err.notFound "No company: c1") ∧
    Company.get
        (DbState.mk
          [CompanyRow.mk (Value.vstr "c1") (Value.vstr "C1") (Value.vstr "Desc1")
            (Value.vint 10) (Value.vstr "http://c1.img")]
          [JobRow.mk (Value.vint 1) (Value.vstr "J1") (Value.vint 100) (Value.vrat 1)
            (Value.vstr "c1"),
           JobRow.mk (Value.vint 2) (Value.vstr "J2") (Value.vint 200) (Value.vrat 0)
            (Value.vstr "c1")])
        "c1" =
      .ok [Company.GetRow.mk (Value.vstr "c1") (Value.vstr "C1") (Value.vstr "Desc1")
             (Value.vint 10) (Value.vstr "http://c1.img") (Value.vint 1) (Value.vstr "J1")
             (Value.vint 100) (Value.vrat 1),
           Company.GetRow.mk (Value.vstr "c1") (Value.vstr "C1") (Value.vstr "Desc1")
             (Value.vint 10) (Value.vstr "http://c1.img") (Value.vint 2) (Value.vstr "J2")
             (Value.vint 200) (Value.vrat 0)] :=
  ⟨rfl, rfl⟩

theorem sqlForPartialUpdate_cons (d : String × Value) (ds : List (String × Value))
    (ov : List (String × String)) :
    sqlForPartialUpdate (d :: ds) ov =
      .ok { setCols := String.intercalate ", " (buildCols ov ((d :: ds).map Prod.fst) 0),
            values := (d :: ds).map Prod.snd } := rfl

/-- When the update object is non-empty and every SET target is a real
column, `Company.update` performs the UPDATE and returns the first updated
row, or `NotFoundError` when no row's (old) handle matches. -/
theorem company_update_eq (st : DbState) (handle : String) (data : List (String × Value))
    (hne : data ≠ [])
    (hall : (Company.resolvedAssigns data).all
      (fun a => Company.tableCols.contains a.1) = true) :
    Company.update st handle data =
      match (st.companies.filter (fun r => decide (r.handle = Value.vstr handle))).map
          (fun r => applyAssignsC r (Company.resolvedAssigns data)) with
      | [] => .error (Err.notFound ("No company: " ++ handle))
      | row :: _ => .ok (row,
          { st with companies := st.companies.map (fun r =>
              if r.handle = Value.vstr handle
              then applyAssignsC r (Company.resolvedAssigns data) else r) }) := by
  cases data with
  | nil => exact absurd rfl hne
  | cons d ds =>
    unfold Company.update
    rw [sqlForPartialUpdate_cons d ds Company.jsToSql]
    dsimp only
    rw [if_pos hall]

theorem company_update_badcol (st : DbState) (handle : String)
    {data : List (String × Value)} (hne : data ≠ [])
    (hall : ¬(Company.resolvedAssigns data).all
      (fun a => Company.tableCols.contains a.1) = true) :
    Company.update st handle data = .error (Err.sqlError "column does not exist") := by
  cases data with
  | nil => exact absurd rfl hne
  | cons d ds =>
    unfold Company.update
    rw [sqlForPartialUpdate_cons d ds Company.jsToSql]
    dsimp only
    rw [if_neg hall]

/-- Job analogue of `company_update_eq`. -/
theorem job_update_eq (st : DbState) (id : Int) (data : List (String × Value))
    (hne : data ≠ [])
    (hall : (Job.resolvedAssigns data).all (fun a => Job.tableCols.contains a.1) = true) :
    Job.update st id data =
      match (st.jobs.filter (fun r => decide (r.id = Value.vint id))).map
          (fun r => applyAssignsJ r (Job.resolvedAssigns data)) with
      | [] => .error (Err.notFound ("No job found with id: " ++ toString id))
      | row :: _ => .ok (row,
          { st with jobs := st.jobs.map (fun r =>
              if r.id = Value.vint id
              then applyAssignsJ r (Job.resolvedAssigns data) else r) }) := by
  cases data with
  | nil => exact absurd rfl hne
  | cons d ds =>
    unfold Job.update
    rw [sqlForPartialUpdate_cons d ds Job.jsToSql]
    dsimp only
    rw [if_pos hall]

theorem job_update_badcol (st : DbState) (id : Int)
    {data : List (String × Value)} (hne : data ≠ [])
    (hall : ¬(Job.resolvedAssigns data).all (fun a => Job.tableCols.contains a.1) = true) :
    Job.update st id data = .error (Err.sqlError "column does not exist") := by
  cases data with
  | nil => exact absurd rfl hne
  | cons d ds =>
    unfold Job.update
    rw [sqlForPartialUpdate_cons d ds Job.jsToSql]
    dsimp only
    rw [if_neg hall]

/-- C4 counterexample: the repository itself accepts an update object that
lists the key column — `Company.update("c1", {handle: "c2"})` succeeds and
the stored handle changes from `"c1"` to `"c2"`, so the key is not immutable
for every accepted update object. -/
theorem C4_key_immutable_counterexample :
    Company.update
        (DbState.mk
          [CompanyRow.mk (Value.vstr "c1") Value.vnull Value.vnull Value.vnull Value.vnull] [])
        "c1" [("handle", Value.vstr "c2")] =
      .ok (CompanyRow.mk (Value.vstr "c2") Value.vnull Value.vnull Value.vnull Value.vnull,
        DbState.mk
          [CompanyRow.mk (Value.vstr "c2") Value.vnull Value.vnull Value.vnull Value.vnull] []) ∧
    Value.vstr "c2" ≠ Value.vstr "c1" :=
  ⟨rfl, by decide⟩

/-- C4 amended: for every update whose data does not list the key field
itself (`handle` for companies, `id` for jobs), a successful
`Company.update` / `Job.update` leaves every stored key unchanged, keeps the
table's length, and changes no column outside the resolved SET targets —
fields not listed in the data retain their prior stored value. -/
theorem C4_key_immutable_amended :
    (∀ (st : DbState) (handle : String) (data : List (String × Value))
       (r : CompanyRow) (st' : DbState),
       "handle" ∉ data.map Prod.fst →
       Company.update st handle data = .ok (r, st') →
       st'.companies.map CompanyRow.handle = st.companies.map CompanyRow.handle ∧
       st'.companies.length = st.companies.length ∧
       (∀ (i : Nat) (h1 : i < st'.companies.length) (h2 : i < st.companies.length)
          (col : String), col ∉ (Company.resolvedAssigns data).map Prod.fst →
          (st'.companies.get ⟨i, h1⟩).getCol col = (st.companies.get ⟨i, h2⟩).getCol col)) ∧
    (∀ (st : DbState) (id : Int) (data : List (String × Value))
       (r : JobRow) (st' : DbState),
       "id" ∉ data.map Prod.fst →
       Job.update st id data = .ok (r, st') →
       st'.jobs.map JobRow.id = st.jobs.map JobRow.id ∧
       st'.jobs.length = st.jobs.length ∧
       (∀ (i : Nat) (h1 : i < st'.jobs.length) (h2 : i < st.jobs.length)
          (col : String), col ∉ (Job.resolvedAssigns data).map Prod.fst →
          (st'.jobs.get ⟨i, h1⟩).getCol col = (st.jobs.get ⟨i, h2⟩).getCol col)) := by
  constructor
  · intro st handle data r st' hkey hupd
    have hassign : "handle" ∉ (Company.resolvedAssigns data).map Prod.fst :=
      company_handle_not_assigned data hkey
    cases data with
    | nil =>
      rw [show Company.update st handle [] = .error (Err.badRequest "No data") from rfl] at hupd
      exact Except.noConfusion hupd
    | cons d ds =>
      by_cases hall : (Company.resolvedAssigns (d :: ds)).all
          (fun a => Company.tableCols.contains a.1) = true
      · rw [company_update_eq st handle (d :: ds) (by simp) hall] at hupd
        cases hret : (st.companies.filter (fun r0 => decide (r0.handle = Value.vstr handle))).map
            (fun r0 => applyAssignsC r0 (Company.resolvedAssigns (d :: ds))) with
        | nil =>
          rw [hret] at hupd
          exact Except.noConfusion hupd
        | cons row rest =>
          rw [hret] at hupd
          have h2 := Except.ok.inj hupd
          have hst := congrArg Prod.snd h2
          simp only at hst
          subst hst
          refine ⟨?_, by simp, ?_⟩
          · show (st.companies.map _).map CompanyRow.handle = _
            rw [List.map_map]
            apply List.map_congr_left
            intro a ha
            simp only [Function.comp]
            by_cases hc : a.handle = Value.vstr handle
            · rw [if_pos hc]
              have hh := applyAssignsC_getCol "handle"
                (Company.resolvedAssigns (d :: ds)) a hassign
              rwa [CompanyRow.getCol_handle, CompanyRow.getCol_handle] at hh
            · rw [if_neg hc]
          · intro i hI1 hI2 col hcol
            rw [List.get_eq_getElem, List.get_eq_getElem]
            simp only [List.getElem_map]
            by_cases hc : (st.companies[i]).handle = Value.vstr handle
            · rw [if_pos hc]
              exact applyAssignsC_getCol col _ _ hcol
            · rw [if_neg hc]
      · rw [company_update_badcol st handle (by simp) hall] at hupd
        exact Except.noConfusion hupd
  · intro st id data r st' hkey hupd
    have hassign : "id" ∉ (Job.resolvedAssigns data).map Prod.fst :=
      job_id_not_assigned data hkey
    cases data with
    | nil =>
      rw [show Job.update st id [] = .error (Err.badRequest "No data") from rfl] at hupd
      exact Except.noConfusion hupd
    | cons d ds =>
      by_cases hall : (Job.resolvedAssigns (d :: ds)).all
          (fun a => Job.tableCols.contains a.1) = true
      · rw [job_update_eq st id (d :: ds) (by simp) hall] at hupd
        cases hret : (st.jobs.filter (fun r0 => decide (r0.id = Value.vint id))).map
            (fun r0 => applyAssignsJ r0 (Job.resolvedAssigns (d :: ds))) with
        | nil =>
          rw [hret] at hupd
          exact Except.noConfusion hupd
        | cons row rest =>
          rw [hret] at hupd
          have h2 := Except.ok.inj hupd
          have hst := congrArg Prod.snd h2
          simp only at hst
          subst hst
          refine ⟨?_, by simp, ?_⟩
          · show (st.jobs.map _).map JobRow.id = _
            rw [List.map_map]
            apply List.map_congr_left
            intro a ha
            simp only [Function.comp]
            by_cases hc : a.id = Value.vint id
            · rw [if_pos hc]
              have hh := applyAssignsJ_getCol "id" (Job.resolvedAssigns (d :: ds)) a hassign
              rwa [JobRow.getCol_id, JobRow.getCol_id] at hh
            · rw [if_neg hc]
          · intro i hI1 hI2 col hcol
            rw [List.get_eq_getElem, List.get_eq_getElem]
            simp only [List.getElem_map]
            by_cases hc : (st.jobs[i]).id = Value.vint id
            · rw [if_pos hc]
              exact applyAssignsJ_getCol col _ _ hcol
            · rw [if_neg hc]
      · rw [job_update_badcol st id (by simp) hall] at hupd
        exact Except.noConfusion hupd

theorem C4_key_immutable_amended_witness :
    (DbState.mk
        [CompanyRow.mk (Value.vstr "c1") (Value.vstr "N2") Value.vnull Value.vnull Value.vnull]
        [JobRow.mk (Value.vint 7) (Value.vstr "T") Value.vnull Value.vnull (Value.vstr "c1")]
      ).companies.map CompanyRow.handle =
    (DbState.mk
        [CompanyRow.mk (Value.vstr "c1") (Value.vstr "N") Value.vnull Value.vnull Value.vnull]
        [JobRow.mk (Value.vint 7) (Value.vstr "T") Value.vnull Value.vnull (Value.vstr "c1")]
      ).companies.map CompanyRow.handle ∧
    (DbState.mk
        [CompanyRow.mk (Value.vstr "c1") (Value.vstr "N") Value.vnull Value.vnull Value.vnull]
        [JobRow.mk (Value.vint 7) (Value.vstr "T") (Value.vint 5) Value.vnull (Value.vstr "c1")]
      ).jobs.map JobRow.id =
    (DbState.mk
        [CompanyRow.mk (Value.vstr "c1") (Value.vstr "N") Value.vnull Value.vnull Value.vnull]
        [JobRow.mk (Value.vint 7) (Value.vstr "T") Value.vnull Value.vnull (Value.vstr "c1")]
      ).jobs.map JobRow.id :=
  ⟨(C4_key_immutable_amended.1
      (DbState.mk
        [CompanyRow.mk (Value.vstr "c1") (Value.vstr "N") Value.vnull Value.vnull Value.vnull]
        [JobRow.mk (Value.vint 7) (Value.vstr "T") Value.vnull Value.vnull (Value.vstr "c1")])
      "c1" [("name", Value.vstr "N2")]
      (CompanyRow.mk (Value.vstr "c1") (Value.vstr "N2") Value.vnull Value.vnull Value.vnull)
      (DbState.mk
        [CompanyRow.mk (Value.vstr "c1") (Value.vstr "N2") Value.vnull Value.vnull Value.vnull]
        [JobRow.mk (Value.vint 7) (Value.vstr "T") Value.vnull Value.vnull (Value.vstr "c1")])
      (by decide) rfl).1,
   (C4_key_immutable_amended.2
      (DbState.mk
        [CompanyRow.mk (Value.vstr "c1") (Value.vstr "N") Value.vnull Value.vnull Value.vnull]
        [JobRow.mk (Value.vint 7) (Value.vstr "T") Value.vnull Value.vnull (Value.vstr "c1")])
      7 [("salary", Value.vint 5)]
      (JobRow.mk (Value.vint 7) (Value.vstr "T") (Value.vint 5) Value.vnull (Value.vstr "c1"))
      (DbState.mk
        [CompanyRow.mk (Value.vstr "c1") (Value.vstr "N") Value.vnull Value.vnull Value.vnull]
        [JobRow.mk (Value.vint 7) (Value.vstr "T") (Value.vint 5) Value.vnull (Value.vstr "c1")])
      (by decide) rfl).1⟩
